import Mathlib

/-!
Verification of the e-commerce storefront repository against its
natural-language specification.

The development shallowly embeds the pieces of the source that the claims
are about:

* the client-side cart store (spec §4.1; its source module
  `src/contexts/CartContext.tsx` is referenced by every page but is not
  present in the source tree, so it is modelled from the spec),
* the checkout submission handler (`CheckoutPage.handleSubmit`),
* the address save handler (`AddressForm.handleSubmit`),
* the category form error mapping and `generateSlug`
  (`CategoryForm`), the login error mapping (`LoginPage.handleSubmit`),
* the `products` table constraints of the SQL migration
  `20250705104231_long_frost.sql`.

Prices are modelled as rationals (the platform column type is
`decimal(10,2)`); ids and messages as strings; JS `undefined` as `Option`.
-/

namespace Storefront

/-- Modelled from the spec: the cart store's product snapshot, "the product
fields captured at the moment of adding to cart" (spec Glossary).  The store
module `src/contexts/CartContext.tsx` is not under `src/`; only its callers
are, so the snapshot keeps the fields those callers read: id, name, price. -/
structure ProductSnapshot where
  id : String
  name : String
  price : ℚ
deriving DecidableEq, Repr

/-- Modelled from the spec: a cart line item
`{ product : ProductSnapshot, quantity : integer }` (spec §4.1). -/
structure CartItem where
  product : ProductSnapshot
  quantity : Int
deriving DecidableEq, Repr

/-- The product ids present in a cart, in line-item order. -/
def cartIds (items : List CartItem) : List String :=
  items.map (fun it => it.product.id)

/-- Modelled from the spec: `addItem(product, quantity)` of the missing
`CartContext` — "if a line item for `product.id` exists, increments its
quantity by `quantity`; otherwise appends a new line item with that
quantity" (spec §4.1). -/
def addItem (items : List CartItem) (p : ProductSnapshot) (q : Int) : List CartItem :=
  if items.any (fun it => it.product.id == p.id) then
    items.map (fun it =>
      if it.product.id == p.id then { it with quantity := it.quantity + q } else it)
  else
    items ++ [⟨p, q⟩]

/-- Modelled from the spec: `getTotalItems()` — "the sum of quantities
across all line items" (spec §4.1). -/
def getTotalItems (items : List CartItem) : Int :=
  (items.map (fun it => it.quantity)).sum

/-- Modelled from the spec: `getTotalPrice()` — "the sum of
`product.price * quantity` across all line items, using the price captured
at add-time" (spec §4.1). -/
def getTotalPrice (items : List CartItem) : ℚ :=
  (items.map (fun it => it.product.price * (it.quantity : ℚ))).sum

/-- Modelled from the spec: `clear()` — "empties the cart" (spec §4.1). -/
def clearCart : List CartItem := []

/-- Modelled from the spec: the value found under the cart's fixed local
storage key — either a well-formed serialized snapshot of the line-item
sequence, or an arbitrary string that fails to deserialize (spec §6:
"a serialized array of `{product, quantity}` pairs"). -/
inductive StoredPayload where
  | snapshot (items : List CartItem)
  | corrupt (raw : String)
deriving DecidableEq, Repr

/-- Modelled from the spec: serialization of the full line-item sequence,
written to local storage by every mutating operation (spec §4.1). -/
def serializeCart (items : List CartItem) : StoredPayload :=
  .snapshot items

/-- Modelled from the spec: deserialization of a persisted payload; a
malformed payload is a deserialization error, not a crash (spec §4.1). -/
def deserializeCart : StoredPayload → Except String (List CartItem)
  | .snapshot items => .ok items
  | .corrupt raw => .error raw

/-- Modelled from the spec: store startup — "on initialization the store
attempts to deserialize that key; a missing or corrupt payload yields an
empty cart (fails open, never throws to the caller)" (spec §4.1).
The argument is `none` when the local-storage key is missing. -/
def initCart : Option StoredPayload → List CartItem
  | none => []
  | some payload =>
    match deserializeCart payload with
    | .ok items => items
    | .error _ => []

/-! ## Checkout submission (`CheckoutPage.handleSubmit`) -/

/-- An error object returned by the external data platform, as consumed by
the checkout handler (`catch (error: any) { setError(error.message || ...) }`). -/
structure DbError where
  message : String
deriving DecidableEq, Repr

/-- The outcome of an awaited external call: a result row-set or an error
(`const { data, error } = await supabase...`). -/
inductive DbResult (α : Type) where
  | ok (val : α)
  | err (e : DbError)
deriving DecidableEq, Repr

/-- Whether an external call succeeded. -/
def DbResult.isOk : DbResult α → Bool
  | .ok _ => true
  | .err _ => false

/-- The order row returned by the `orders` insert (`.select().single()`);
the handler reads `order.id` and `order.order_number`. -/
structure OrderRow where
  id : String
  order_number : String
deriving DecidableEq, Repr

/-- The payload inserted into `orders` by `CheckoutPage.handleSubmit`:
`{ user_id, total_amount: getTotalPrice(), status: 'pending', ... }`. -/
structure OrderInsert where
  user_id : String
  total_amount : ℚ
  status : String
deriving DecidableEq, Repr

/-- The rows inserted into `order_items`:
`items.map(item => ({ order_id, product_id, quantity, price }))`. -/
structure OrderItemInsert where
  order_id : String
  product_id : String
  quantity : Int
  price : ℚ
deriving DecidableEq, Repr

/-- The `orders` insert payload built by the handler. -/
def buildOrderInsert (userId : String) (items : List CartItem) : OrderInsert :=
  ⟨userId, getTotalPrice items, "pending"⟩

/-- The `order_items` insert payload built by the handler from the cart. -/
def buildOrderItems (orderId : String) (items : List CartItem) : List OrderItemInsert :=
  items.map (fun item => ⟨orderId, item.product.id, item.quantity, item.product.price⟩)

/-- The state `CheckoutPage.handleSubmit` leaves behind: the in-memory cart,
the inline error message (`''` when none), whether `clearCart()` was
invoked, and the navigation target, if any. -/
structure CheckoutOutcome where
  cart : List CartItem
  errorMsg : String
  clearedCart : Bool
  navigatedTo : Option String
deriving DecidableEq, Repr

/-- `CheckoutPage.handleSubmit` (src/src/components/products/ProductCard.tsx,
checkout section): inserts the order; on error throws to the catch block,
which sets `error.message || 'Failed to place order'` and leaves the cart
alone; otherwise inserts the order items; on error likewise; otherwise
calls `clearCart()` and navigates to `/order-success`.  The two external
responses are passed in as oracles; the second call is only issued when the
first succeeded. -/
def checkoutHandleSubmit (items : List CartItem)
    (orderRes : DbResult OrderRow) (itemsRes : DbResult Unit) : CheckoutOutcome :=
  match orderRes with
  | .err e =>
    ⟨items, if e.message = "" then "Failed to place order" else e.message, false, none⟩
  | .ok _order =>
    match itemsRes with
    | .err e =>
      ⟨items, if e.message = "" then "Failed to place order" else e.message, false, none⟩
    | .ok _ =>
      ⟨clearCart, "", true, some "/order-success"⟩

/-! ## The `products` table of migration `20250705104231_long_frost.sql` -/

/-- A value fits PostgreSQL `decimal(10,2)`: at most two fractional digits
and at most eight integral digits. -/
def decimal10_2 (q : ℚ) : Prop :=
  (q * 100).den = 1 ∧ |q| < 10 ^ 8

/-- A row of the `products` table; `NOT NULL` columns are plain fields,
nullable columns are `Option` (migration `20250705104231_long_frost.sql`,
`CREATE TABLE products`). -/
structure ProductRow where
  id : String
  name : String
  description : Option String
  price : ℚ
  compare_at_price : Option ℚ
  category_id : Option String
  image_url : Option String
  inventory_count : Int
  sku : Option String
  is_active : Bool
deriving DecidableEq, Repr

/-- Every constraint the migration places on a `products` row beyond the
`NOT NULL`/type constraints already captured by the field types: the two
price columns are `decimal(10,2)`.  The table declares no `CHECK`
constraint at all. -/
def productsRowOk (r : ProductRow) : Prop :=
  decimal10_2 r.price ∧ ∀ c ∈ r.compare_at_price, decimal10_2 c

/-! ## Category form (`CategoryForm.tsx`) -/

/-- An error object returned by the data platform to the category form:
an optional provider error code and a message
(`error.code === '23505'`, `error.message || ...`). -/
structure PostgrestError where
  code : Option String
  message : String
deriving DecidableEq, Repr

/-- The duplicate-slug message shown by `CategoryForm.handleSubmit`. -/
def duplicateSlugMessage : String :=
  "A category with this slug already exists. Please choose a different name."

/-- The generic fallback of `CategoryForm.handleSubmit`. -/
def categorySaveFallback : String := "Failed to save category"

/-- The catch block of `CategoryForm.handleSubmit`:
`if (error.code === '23505') setError(<duplicate-slug message>)
 else setError(error.message || 'Failed to save category')`. -/
def categoryErrorMessage (e : PostgrestError) : String :=
  if e.code = some "23505" then duplicateSlugMessage
  else if e.message = "" then categorySaveFallback
  else e.message

/-- JS code-unit test for the class `[a-z0-9]` of `generateSlug`'s regex
(`a` = 97, `z` = 122, `0` = 48, `9` = 57). -/
def isSlugChar (c : Char) : Bool :=
  (97 ≤ c.toNat && c.toNat ≤ 122) || (48 ≤ c.toNat && c.toNat ≤ 57)

/-- `.replace(/[^a-z0-9]+/g, '-')`: each maximal run of characters outside
`[a-z0-9]` becomes a single `'-'`.  The flag records whether the scanner is
inside such a run (whose `'-'` has already been emitted). -/
def collapseRuns : Bool → List Char → List Char
  | _, [] => []
  | inRun, c :: cs =>
    if isSlugChar c then c :: collapseRuns false cs
    else if inRun then collapseRuns true cs
    else '-' :: collapseRuns true cs

/-- The `^-` alternative of `.replace(/(^-|-$)/g, '')`: remove one leading
hyphen (the anchor `^` can match only at the very start). -/
def dropLeadingHyphen : List Char → List Char
  | [] => []
  | c :: rest => if c == '-' then rest else c :: rest

/-- The `-$` alternative of `.replace(/(^-|-$)/g, '')`: remove one trailing
hyphen (the anchor `$` can match only at the very end). -/
def dropTrailingHyphen (l : List Char) : List Char :=
  match l.getLast? with
  | some c => if c == '-' then l.dropLast else l
  | none => l

/-- The two `replace` stages of `generateSlug`, on character lists. -/
def slugCore (l : List Char) : List Char :=
  dropTrailingHyphen (dropLeadingHyphen (collapseRuns false l))

/-- `generateSlug` (src/src/components/admin/CategoryForm.tsx):
`name.toLowerCase().replace(/[^a-z0-9]+/g, '-').replace(/(^-|-$)/g, '')`.
`Char.toLower` matches the JS lowercase map on the basic latin range, the
only range the subsequent character class distinguishes. -/
def generateSlug (s : String) : String :=
  String.mk (slugCore (s.data.map Char.toLower))

/-- Does a character list avoid starting with a hyphen? -/
def headNotHyphen : List Char → Bool
  | [] => true
  | c :: _ => !(c == '-')

/-- Does a character list avoid ending with a hyphen? -/
def lastNotHyphen (l : List Char) : Bool :=
  match l.getLast? with
  | some c => !(c == '-')
  | none => true

/-- Does a character list avoid two consecutive hyphens? -/
def noDoubleHyphen : List Char → Bool
  | [] => true
  | [_] => true
  | c :: d :: rest => !(c == '-' && d == '-') && noDoubleHyphen (d :: rest)

/-! ## Login page (`LoginPage.tsx`) -/

/-- Does the first character list occur as an initial segment of the
second? (Helper for the JS `includes` model.) -/
def matchesAtStart : List Char → List Char → Bool
  | [], _ => true
  | _ :: _, [] => false
  | c :: cs, d :: ds => c == d && matchesAtStart cs ds

/-- Occurrence test used to model JS `String.prototype.includes`. -/
def charsIncludes (pat : List Char) : List Char → Bool
  | [] => matchesAtStart pat []
  | c :: rest => matchesAtStart pat (c :: rest) || charsIncludes pat rest

/-- JS `s.includes(pat)`. -/
def strIncludes (s pat : String) : Bool :=
  charsIncludes pat.data s.data

/-- The credentials message of `LoginPage.handleSubmit`. -/
def invalidCredsMessage : String :=
  "Invalid email or password. Please check your credentials and try again."

/-- The confirmation message of `LoginPage.handleSubmit`. -/
def emailNotConfirmedMessage : String :=
  "Please check your email and click the confirmation link before signing in."

/-- The generic fallback of `LoginPage.handleSubmit`. -/
def signInFallback : String := "Failed to sign in"

/-- The catch block of `LoginPage.handleSubmit`
(src/src/pages/auth/LoginPage.tsx): substring-matches
`error.message?.includes('Invalid login credentials')`, then
`error.message?.includes('Email not confirmed')`, else shows
`error.message || 'Failed to sign in'`.  A `none` message models a thrown
value without a `message` property (the optional chaining then yields
`undefined`, falsy for both tests and for the final `||`). -/
def loginErrorMessage : Option String → String
  | none => signInFallback
  | some m =>
    if strIncludes m "Invalid login credentials" then invalidCredsMessage
    else if strIncludes m "Email not confirmed" then emailNotConfirmedMessage
    else if m = "" then signInFallback
    else m

/-! ## Address form (`AddressForm.handleSubmit`, embedded in src/src/App.tsx) -/

/-- A row of the `addresses` table as touched by the form; nullable columns
are `Option`. -/
structure AddressRow where
  id : String
  user_id : String
  full_name : String
  address_line_1 : String
  address_line_2 : Option String
  city : String
  state : String
  postal_code : String
  country : String
  phone : Option String
  is_default : Bool
  updated_at : String
deriving DecidableEq, Repr

/-- The form's state (`formData`); every text field is a string, possibly
empty. -/
structure AddressFormState where
  full_name : String
  address_line_1 : String
  address_line_2 : String
  city : String
  state : String
  postal_code : String
  country : String
  phone : String
  is_default : Bool
deriving DecidableEq, Repr

/-- The `addressData` object built by `AddressForm.handleSubmit`
(`formData.address_line_2 || null` and `formData.phone || null` turn the
empty string into null). -/
structure AddressData where
  user_id : String
  full_name : String
  address_line_1 : String
  address_line_2 : Option String
  city : String
  state : String
  postal_code : String
  country : String
  phone : Option String
  is_default : Bool
  updated_at : String
deriving DecidableEq, Repr

/-- Builds `addressData` from the signed-in user's id, the form state, and
the current timestamp (`new Date().toISOString()`). -/
def buildAddressData (userId : String) (fd : AddressFormState) (now : String) : AddressData :=
  ⟨userId, fd.full_name, fd.address_line_1,
    (if fd.address_line_2 = "" then none else some fd.address_line_2),
    fd.city, fd.state, fd.postal_code, fd.country,
    (if fd.phone = "" then none else some fd.phone),
    fd.is_default, now⟩

/-- The effect of `supabase.from('addresses').update(addressData).eq('id', a.id)`
on one matching row: every column of the payload is overwritten, the id is
kept. -/
def applyAddressData (r : AddressRow) (d : AddressData) : AddressRow :=
  ⟨r.id, d.user_id, d.full_name, d.address_line_1, d.address_line_2,
    d.city, d.state, d.postal_code, d.country, d.phone, d.is_default, d.updated_at⟩

/-- The row created by `supabase.from('addresses').insert([addressData])`;
the id is generated by the platform. -/
def insertAddressRow (newId : String) (d : AddressData) : AddressRow :=
  ⟨newId, d.user_id, d.full_name, d.address_line_1, d.address_line_2,
    d.city, d.state, d.postal_code, d.country, d.phone, d.is_default, d.updated_at⟩

/-- Step 1 of `AddressForm.handleSubmit`: update the edited row, or insert
a new one, with the full `addressData` payload (including `is_default`). -/
def saveAddressRow (db : List AddressRow) (d : AddressData)
    (existing : Option AddressRow) (newId : String) : List AddressRow :=
  match existing with
  | some a => db.map (fun r => if r.id = a.id then applyAddressData r d else r)
  | none => db ++ [insertAddressRow newId d]

/-- The id excluded by the cleanup update's filter: `address?.id || ''`.
For an existing address JS yields its id when truthy and `''` when it is
the empty string — equal to the id either way; when creating, `address` is
undefined and the excluded id is `''`. -/
def excludedId : Option AddressRow → String
  | some a => a.id
  | none => ""

/-- Step 2 of `AddressForm.handleSubmit`, run only when
`formData.is_default` is set:
`supabase.from('addresses').update({ is_default: false })
  .eq('user_id', user.id).neq('id', address?.id || '')`. -/
def clearOtherDefaults (db : List AddressRow) (userId : String)
    (excluded : String) : List AddressRow :=
  db.map (fun r =>
    if r.user_id = userId ∧ r.id ≠ excluded then
      ⟨r.id, r.user_id, r.full_name, r.address_line_1, r.address_line_2,
        r.city, r.state, r.postal_code, r.country, r.phone, false, r.updated_at⟩
    else r)

/-- `AddressForm.handleSubmit` (success path, embedded in src/src/App.tsx):
writes the address row, then, if the default flag is requested, separately
clears default flags by the `neq` filter above.  The result of the second
update is not checked by the source. -/
def addressHandleSubmit (db : List AddressRow) (userId : String)
    (fd : AddressFormState) (existing : Option AddressRow)
    (newId : String) (now : String) : List AddressRow :=
  let db1 := saveAddressRow db (buildAddressData userId fd now) existing newId
  if fd.is_default then clearOtherDefaults db1 userId (excludedId existing) else db1

/-- Modelled from the spec: calling `addItem` once per element of a list of
(product, quantity) requests, starting from a given cart — the call
sequence quantified over by spec §8's first testable property. -/
def runAddCalls (s : List CartItem) (calls : List (ProductSnapshot × Int)) : List CartItem :=
  calls.foldl (fun items c => addItem items c.1 c.2) s

/-! ## Cart store lemmas -/

theorem addItem_of_not_mem (items : List CartItem) (p : ProductSnapshot) (q : Int)
    (h : p.id ∉ cartIds items) : addItem items p q = items ++ [⟨p, q⟩] := by
  have hany : items.any (fun it => it.product.id == p.id) = false := by
    rw [List.any_eq_false]
    intro it hit
    simp only [beq_iff_eq]
    intro heq
    exact h (List.mem_map.mpr ⟨it, hit, heq⟩)
  simp [addItem, hany]

theorem runAddCalls_of_disjoint (calls : List (ProductSnapshot × Int)) :
    ∀ s : List CartItem,
    (calls.map (fun c => c.1.id)).Nodup →
    (∀ c ∈ calls, c.1.id ∉ cartIds s) →
    runAddCalls s calls = s ++ calls.map (fun c => (⟨c.1, c.2⟩ : CartItem)) := by
  induction calls with
  | nil => intro s _ _; simp [runAddCalls]
  | cons c cs ih =>
    intro s hnd hdisj
    have hstep : addItem s c.1 c.2 = s ++ [⟨c.1, c.2⟩] :=
      addItem_of_not_mem s c.1 c.2 (hdisj c (List.mem_cons_self c cs))
    have hnd2 : (c.1.id :: cs.map (fun c => c.1.id)).Nodup := by
      rw [List.map_cons] at hnd; exact hnd
    have hnd' := (List.nodup_cons.mp hnd2).2
    have hhead := (List.nodup_cons.mp hnd2).1
    have hdisj' : ∀ c' ∈ cs, c'.1.id ∉ cartIds (s ++ [⟨c.1, c.2⟩]) := by
      intro c' hc' hmem
      rw [cartIds, List.map_append] at hmem
      rcases List.mem_append.mp hmem with hmem | hmem
      · exact hdisj c' (List.mem_cons_of_mem c hc') (by simpa [cartIds] using hmem)
      · have heq : c'.1.id = c.1.id := by simpa using hmem
        exact hhead (heq ▸ List.mem_map.mpr ⟨c', hc', rfl⟩)
    calc runAddCalls s (c :: cs)
        = runAddCalls (addItem s c.1 c.2) cs := by simp [runAddCalls]
      _ = runAddCalls (s ++ [⟨c.1, c.2⟩]) cs := by rw [hstep]
      _ = (s ++ [⟨c.1, c.2⟩]) ++ cs.map (fun c => (⟨c.1, c.2⟩ : CartItem)) :=
          ih (s ++ [⟨c.1, c.2⟩]) hnd' hdisj'
      _ = s ++ (c :: cs).map (fun c => (⟨c.1, c.2⟩ : CartItem)) := by
          simp [List.append_assoc]

/-- Claim C1: for every sequence of `addItem` calls whose product ids are
pairwise distinct, starting from an empty cart, `getTotalItems()` returns
the sum of the quantity arguments passed and `getTotalPrice()` returns the
sum over the calls of `price * quantity`, each product's price being the
one passed at the time it was added. -/
theorem claim_C1_cart_totals (calls : List (ProductSnapshot × Int))
    (hids : (calls.map (fun c => c.1.id)).Nodup) :
    getTotalItems (runAddCalls [] calls) = (calls.map (fun c => c.2)).sum ∧
    getTotalPrice (runAddCalls [] calls) =
      (calls.map (fun c => c.1.price * (c.2 : ℚ))).sum := by
  have h := runAddCalls_of_disjoint calls [] hids (by intro c _; simp [cartIds])
  rw [h]
  constructor
  · simp only [List.nil_append, getTotalItems, List.map_map]
    exact congrArg List.sum (List.map_congr_left fun a _ => rfl)
  · simp only [List.nil_append, getTotalPrice, List.map_map]
    exact congrArg List.sum (List.map_congr_left fun a _ => rfl)

/-- Witness for C1 at the spec §8 end-to-end scenario: two distinct
products, quantities 1 and 3, prices 10 and 5. -/
theorem claim_C1_cart_totals_witness :
    getTotalItems (runAddCalls [] [(⟨"pa", "A", 10⟩, 1), (⟨"pb", "B", 5⟩, 3)]) = 4 ∧
    getTotalPrice (runAddCalls [] [(⟨"pa", "A", 10⟩, 1), (⟨"pb", "B", 5⟩, 3)]) = 25 := by
  have h := claim_C1_cart_totals [(⟨"pa", "A", 10⟩, 1), (⟨"pb", "B", 5⟩, 3)] (by decide)
  refine ⟨?_, ?_⟩
  · rw [h.1]; norm_num
  · rw [h.2]; norm_num

/-- Claim C2: if a line item for `p.id` already exists then `addItem p q`
increments that line item's quantity by `q` and adds no new line item;
otherwise it appends a new line item with quantity `q`; in particular
`addItem p 2` followed by `addItem p 3` on the same product yields exactly
one line item for `p` with quantity 5. -/
theorem claim_C2_addItem_upsert :
    (∀ (p : ProductSnapshot) (q : Int) (l₁ l₂ : List CartItem) (it : CartItem),
      it.product.id = p.id →
      (∀ x ∈ l₁, x.product.id ≠ p.id) →
      (∀ x ∈ l₂, x.product.id ≠ p.id) →
      addItem (l₁ ++ it :: l₂) p q = l₁ ++ ⟨it.product, it.quantity + q⟩ :: l₂) ∧
    (∀ (p : ProductSnapshot) (q : Int) (items : List CartItem),
      (∀ x ∈ items, x.product.id ≠ p.id) →
      addItem items p q = items ++ [⟨p, q⟩]) ∧
    (∀ p : ProductSnapshot, addItem (addItem [] p 2) p 3 = [⟨p, 5⟩]) := by
  refine ⟨?_, ?_, ?_⟩
  · intro p q l₁ l₂ it hit h₁ h₂
    have hany : (l₁ ++ it :: l₂).any (fun x => x.product.id == p.id) = true :=
      List.any_eq_true.mpr ⟨it, by simp, by simpa using hit⟩
    rw [addItem, if_pos hany, List.map_append, List.map_cons]
    congr 1
    · exact (List.map_congr_left (fun x hx => by simp [h₁ x hx])).trans (List.map_id l₁)
    · congr 1
      · simp [hit]
      · exact (List.map_congr_left (fun x hx => by simp [h₂ x hx])).trans (List.map_id l₂)
  · intro p q items h
    refine addItem_of_not_mem items p q ?_
    intro hmem
    rcases List.mem_map.mp hmem with ⟨x, hx, hxe⟩
    exact h x hx hxe
  · intro p
    simp [addItem]

/-- Witness for C2: a concrete product added with quantity 2 then 3 gives a
single line item with quantity 5, in both the sequenced form and the
decomposed existing-item form. -/
theorem claim_C2_addItem_upsert_witness :
    addItem (addItem [] ⟨"pa", "A", 10⟩ 2) ⟨"pa", "A", 10⟩ 3 = [⟨⟨"pa", "A", 10⟩, 5⟩] ∧
    addItem [⟨⟨"pa", "A", 10⟩, 2⟩] ⟨"pa", "A", 10⟩ 3 = [⟨⟨"pa", "A", 10⟩, 5⟩] := by
  refine ⟨claim_C2_addItem_upsert.2.2 ⟨"pa", "A", 10⟩, ?_⟩
  have h := claim_C2_addItem_upsert.1 ⟨"pa", "A", 10⟩ 3 [] [] ⟨⟨"pa", "A", 10⟩, 2⟩
    rfl (by simp) (by simp)
  simpa using h

/-- Claim C5: cart store startup never throws: a missing local-storage
payload and a payload that fails to deserialize both yield the empty
cart. -/
theorem claim_C5_init_fails_open :
    initCart none = [] ∧
    (∀ raw : String, initCart (some (.corrupt raw)) = []) :=
  ⟨rfl, fun _ => rfl⟩

/-- Claim C6: serializing the line-item sequence and reinitializing the
store from that snapshot restores the cart exactly. -/
theorem claim_C6_roundtrip (items : List CartItem) :
    initCart (some (serializeCart items)) = items := rfl

/-! ## Checkout, schema, category form, login -/

/-- Claim C3: in the checkout submission, `clearCart()` is invoked exactly
when both the order insert and the order-items insert succeed; on any
failure the in-memory cart is left unchanged and a non-empty inline error
message is shown. -/
theorem claim_C3_checkout_atomic (items : List CartItem)
    (orderRes : DbResult OrderRow) (itemsRes : DbResult Unit) :
    ((checkoutHandleSubmit items orderRes itemsRes).clearedCart = true ↔
      orderRes.isOk = true ∧ itemsRes.isOk = true) ∧
    ((checkoutHandleSubmit items orderRes itemsRes).clearedCart = true →
      (checkoutHandleSubmit items orderRes itemsRes).cart = clearCart ∧
      (checkoutHandleSubmit items orderRes itemsRes).navigatedTo = some "/order-success") ∧
    ((checkoutHandleSubmit items orderRes itemsRes).clearedCart = false →
      (checkoutHandleSubmit items orderRes itemsRes).cart = items ∧
      (checkoutHandleSubmit items orderRes itemsRes).errorMsg ≠ "") := by
  cases orderRes with
  | err e =>
    refine ⟨by simp [checkoutHandleSubmit, DbResult.isOk], by simp [checkoutHandleSubmit], ?_⟩
    intro _
    refine ⟨rfl, ?_⟩
    by_cases he : e.message = ""
    · simp [checkoutHandleSubmit, he]
    · simp [checkoutHandleSubmit, he]
  | ok o =>
    cases itemsRes with
    | err e =>
      refine ⟨by simp [checkoutHandleSubmit, DbResult.isOk], by simp [checkoutHandleSubmit], ?_⟩
      intro _
      refine ⟨rfl, ?_⟩
      by_cases he : e.message = ""
      · simp [checkoutHandleSubmit, he]
      · simp [checkoutHandleSubmit, he]
    | ok u =>
      exact ⟨by simp [checkoutHandleSubmit, DbResult.isOk],
        by intro _; exact ⟨rfl, rfl⟩,
        by simp [checkoutHandleSubmit]⟩

/-- Witness for C3 at a failing order insert: the cart survives and an
inline message is set; and at a fully successful run the cart is cleared. -/
theorem claim_C3_checkout_atomic_witness :
    (checkoutHandleSubmit [⟨⟨"pa", "A", 10⟩, 2⟩] (.err ⟨"boom"⟩) (.ok ())).cart
        = [⟨⟨"pa", "A", 10⟩, 2⟩] ∧
    (checkoutHandleSubmit [⟨⟨"pa", "A", 10⟩, 2⟩] (.err ⟨"boom"⟩) (.ok ())).errorMsg ≠ "" ∧
    (checkoutHandleSubmit [⟨⟨"pa", "A", 10⟩, 2⟩] (.ok ⟨"o1", "N1"⟩) (.ok ())).clearedCart = true := by
  have h := (claim_C3_checkout_atomic [⟨⟨"pa", "A", 10⟩, 2⟩] (.err ⟨"boom"⟩) (.ok ())).2.2
    (by rfl)
  refine ⟨h.1, h.2, ?_⟩
  exact (claim_C3_checkout_atomic [⟨⟨"pa", "A", 10⟩, 2⟩] (.ok ⟨"o1", "N1"⟩) (.ok ())).1.mpr
    ⟨rfl, rfl⟩

/-- Claim C4 as stated is false: the migration places no `CHECK` on
`products.price`, so a row whose price is `-1` satisfies every constraint
of the `products` table while its price is negative. -/
theorem claim_C4_price_counterexample :
    ¬ (∀ r : ProductRow, productsRowOk r → 0 ≤ r.price) := by
  intro h
  have hml : ((-1 : ℚ) * 100) = ((-100 : ℤ) : ℚ) := by norm_num
  have hok : productsRowOk ⟨"pbad", "Bad", none, -1, none, none, none, 0, none, true⟩ := by
    refine ⟨⟨?_, ?_⟩, ?_⟩
    · rw [hml, Rat.den_intCast]
    · rw [abs_of_nonpos (by norm_num)]
      norm_num
    · intro c hc
      simp at hc
  have := h _ hok
  norm_num at this

/-- Claim C4 amended: the schema constrains `products.price` to a non-null
`decimal(10,2)` value, but does not enforce `price ≥ 0` — some row
satisfying every constraint of the `products` table has a negative
price. -/
theorem claim_C4_price_amended :
    (∀ r : ProductRow, productsRowOk r → (r.price * 100).den = 1 ∧ |r.price| < 10 ^ 8) ∧
    (∃ r : ProductRow, productsRowOk r ∧ r.price < 0) := by
  constructor
  · intro r h
    exact h.1
  · refine ⟨⟨"pbad", "Bad", none, -1, none, none, none, 0, none, true⟩, ⟨⟨?_, ?_⟩, ?_⟩, by norm_num⟩
    · have hml : ((-1 : ℚ) * 100) = ((-100 : ℤ) : ℚ) := by norm_num
      rw [hml, Rat.den_intCast]
    · rw [abs_of_nonpos (by norm_num)]
      norm_num
    · intro c hc
      simp at hc

/-- Witness for the amended C4: the `decimal(10,2)` constraint evaluated on
a concrete valid row with price 19.99. -/
theorem claim_C4_price_amended_witness :
    ((19.99 : ℚ) * 100).den = 1 ∧ |(19.99 : ℚ)| < 10 ^ 8 := by
  have h := claim_C4_price_amended.1
    ⟨"pok", "Ok", none, 19.99, none, none, none, 3, none, true⟩
  refine h ⟨⟨?_, ?_⟩, ?_⟩
  · have hml : ((19.99 : ℚ) * 100) = ((1999 : ℤ) : ℚ) := by norm_num
    rw [hml, Rat.den_intCast]
  · rw [abs_of_nonneg (by norm_num)]
    norm_num
  · intro c hc
    simp at hc

/-- Claim C8: the category form shows the duplicate-slug message exactly
for errors carrying the provider code `23505`; every other error shows its
own message, or the generic fallback when the message is empty.  (The
hypothesis excludes the degenerate error whose own message text happens to
equal the duplicate-slug message.) -/
theorem claim_C8_duplicate_slug (code : Option String) (msg : String)
    (hmsg : msg ≠ duplicateSlugMessage) :
    (categoryErrorMessage ⟨code, msg⟩ = duplicateSlugMessage ↔ code = some "23505") ∧
    (code ≠ some "23505" →
      categoryErrorMessage ⟨code, msg⟩ = if msg = "" then categorySaveFallback else msg) := by
  have hfb : categorySaveFallback ≠ duplicateSlugMessage := by decide
  by_cases hc : code = some "23505"
  · refine ⟨⟨fun _ => hc, fun _ => ?_⟩, fun hn => absurd hc hn⟩
    simp [categoryErrorMessage, hc]
  · refine ⟨⟨fun h => ?_, fun h => absurd h hc⟩, fun _ => ?_⟩
    · rw [categoryErrorMessage] at h
      simp only [if_neg hc] at h
      by_cases he : msg = ""
      · rw [if_pos he] at h
        exact absurd h hfb
      · rw [if_neg he] at h
        exact absurd h hmsg
    · rw [categoryErrorMessage]
      simp only [if_neg hc]

/-- Witness for C8: a `23505` error shows the duplicate-slug message; an
unrelated error shows its own message. -/
theorem claim_C8_duplicate_slug_witness :
    categoryErrorMessage ⟨some "23505", "duplicate key value"⟩ = duplicateSlugMessage ∧
    categoryErrorMessage ⟨some "42P01", "relation missing"⟩ = "relation missing" := by
  constructor
  · exact (claim_C8_duplicate_slug (some "23505") "duplicate key value" (by decide)).1.mpr rfl
  · have h := (claim_C8_duplicate_slug (some "42P01") "relation missing" (by decide)).2
      (by decide)
    simpa using h

/-- Claim C9: the login view selects the displayed message by substring
match, in order: a credentials message for `Invalid login credentials`,
else a confirmation message for `Email not confirmed`, else the error's raw
message, or the generic fallback when the message is empty or absent. -/
theorem claim_C9_login_messages (m : String) :
    (strIncludes m "Invalid login credentials" = true →
      loginErrorMessage (some m) = invalidCredsMessage) ∧
    (strIncludes m "Invalid login credentials" = false →
      strIncludes m "Email not confirmed" = true →
      loginErrorMessage (some m) = emailNotConfirmedMessage) ∧
    (strIncludes m "Invalid login credentials" = false →
      strIncludes m "Email not confirmed" = false →
      loginErrorMessage (some m) = if m = "" then signInFallback else m) ∧
    loginErrorMessage none = signInFallback := by
  refine ⟨fun h1 => ?_, fun h1 h2 => ?_, fun h1 h2 => ?_, rfl⟩
  · simp [loginErrorMessage, h1]
  · simp [loginErrorMessage, h1, h2]
  · simp [loginErrorMessage, h1, h2]

/-- Witness for C9 at the two recognized substrings. -/
theorem claim_C9_login_messages_witness :
    loginErrorMessage (some "Invalid login credentials") = invalidCredsMessage ∧
    loginErrorMessage (some "Email not confirmed") = emailNotConfirmedMessage := by
  exact ⟨(claim_C9_login_messages "Invalid login credentials").1 (by decide),
    (claim_C9_login_messages "Email not confirmed").2.1 (by decide) (by decide)⟩

/-- Claim C7, evaluated where the code contradicts it: an owner `u1` with
one existing default address `a1` creates (`existing = none`) a new address
`a2` with the default flag set.  Between the two external writes both rows
carry the default flag (the non-atomic window of the claim), but the
cleanup update excludes only `address?.id || ''` = the empty string, so it
clears `is_default` on every row of the owner — including the address just
saved as default — and the owner ends with no default address, not with
`a2` as the only default. -/
theorem claim_C7_default_address_eval :
    (saveAddressRow
        [⟨"a1", "u1", "Old Name", "1 Old St", none, "C", "S", "P", "US", none, true, "t0"⟩]
        (buildAddressData "u1" ⟨"New Name", "2 New St", "", "C", "S", "P", "US", "", true⟩ "t1")
        none "a2").map (fun r => (r.id, r.is_default)) = [("a1", true), ("a2", true)] ∧
    (addressHandleSubmit
        [⟨"a1", "u1", "Old Name", "1 Old St", none, "C", "S", "P", "US", none, true, "t0"⟩]
        "u1" ⟨"New Name", "2 New St", "", "C", "S", "P", "US", "", true⟩
        none "a2" "t1").map (fun r => (r.id, r.is_default)) = [("a1", false), ("a2", false)] := by
  constructor <;> rfl

/-! ## `generateSlug` shape lemmas -/

theorem isSlugChar_beq_hyphen {c : Char} (h : isSlugChar c = true) : (c == '-') = false := by
  rw [beq_eq_false_iff_ne]
  intro he
  subst he
  exact absurd h (by decide)

theorem collapseRuns_chars (l : List Char) :
    ∀ b, ∀ c ∈ collapseRuns b l, isSlugChar c = true ∨ c = '-' := by
  induction l with
  | nil => intro b c hc; simp [collapseRuns] at hc
  | cons a as ih =>
    intro b c hc
    by_cases ha : isSlugChar a = true
    · rw [show collapseRuns b (a :: as) = a :: collapseRuns false as from by
        simp [collapseRuns, ha]] at hc
      rcases List.mem_cons.mp hc with h | h
      · exact Or.inl (h ▸ ha)
      · exact ih false c h
    · cases b with
      | true =>
        rw [show collapseRuns true (a :: as) = collapseRuns true as from by
          simp [collapseRuns, ha]] at hc
        exact ih true c hc
      | false =>
        rw [show collapseRuns false (a :: as) = '-' :: collapseRuns true as from by
          simp [collapseRuns, ha]] at hc
        rcases List.mem_cons.mp hc with h | h
        · exact Or.inr h
        · exact ih true c h

theorem collapseRuns_true_head (l : List Char) :
    headNotHyphen (collapseRuns true l) = true := by
  induction l with
  | nil => rfl
  | cons a as ih =>
    by_cases ha : isSlugChar a = true
    · rw [show collapseRuns true (a :: as) = a :: collapseRuns false as from by
        simp [collapseRuns, ha]]
      simp [headNotHyphen, isSlugChar_beq_hyphen ha]
    · rw [show collapseRuns true (a :: as) = collapseRuns true as from by
        simp [collapseRuns, ha]]
      exact ih

theorem noDoubleHyphen_cons (c : Char) (l : List Char) (h : (c == '-') = false) :
    noDoubleHyphen (c :: l) = noDoubleHyphen l := by
  cases l with
  | nil => simp [noDoubleHyphen]
  | cons d r => simp [noDoubleHyphen, h]

theorem noDoubleHyphen_cons_hyphen (l : List Char) :
    noDoubleHyphen ('-' :: l) = (headNotHyphen l && noDoubleHyphen l) := by
  cases l with
  | nil => simp [noDoubleHyphen, headNotHyphen]
  | cons d r => simp [noDoubleHyphen, headNotHyphen]

theorem noDoubleHyphen_tail {x : Char} {l : List Char}
    (h : noDoubleHyphen (x :: l) = true) : noDoubleHyphen l = true := by
  cases l with
  | nil => rfl
  | cons d r =>
    rw [noDoubleHyphen] at h
    exact ((Bool.and_eq_true _ _).mp h).2

theorem collapseRuns_noDouble (l : List Char) :
    ∀ b, noDoubleHyphen (collapseRuns b l) = true := by
  induction l with
  | nil => intro b; rfl
  | cons a as ih =>
    intro b
    by_cases ha : isSlugChar a = true
    · rw [show collapseRuns b (a :: as) = a :: collapseRuns false as from by
        simp [collapseRuns, ha]]
      rw [noDoubleHyphen_cons a _ (isSlugChar_beq_hyphen ha)]
      exact ih false
    · cases b with
      | true =>
        rw [show collapseRuns true (a :: as) = collapseRuns true as from by
          simp [collapseRuns, ha]]
        exact ih true
      | false =>
        rw [show collapseRuns false (a :: as) = '-' :: collapseRuns true as from by
          simp [collapseRuns, ha]]
        rw [noDoubleHyphen_cons_hyphen]
        simp [collapseRuns_true_head as, ih true]

theorem mem_dropLeadingHyphen {c : Char} {l : List Char}
    (h : c ∈ dropLeadingHyphen l) : c ∈ l := by
  cases l with
  | nil => exact h
  | cons a t =>
    rw [dropLeadingHyphen] at h
    by_cases ha : (a == '-') = true
    · rw [if_pos ha] at h
      exact List.mem_cons_of_mem a h
    · rw [if_neg ha] at h
      exact h

theorem dropLeadingHyphen_head {l : List Char} (h : noDoubleHyphen l = true) :
    headNotHyphen (dropLeadingHyphen l) = true := by
  cases l with
  | nil => rfl
  | cons a t =>
    rw [dropLeadingHyphen]
    by_cases ha : (a == '-') = true
    · rw [if_pos ha]
      have ha' : a = '-' := by simpa using ha
      subst ha'
      rw [noDoubleHyphen_cons_hyphen] at h
      exact ((Bool.and_eq_true _ _).mp h).1
    · rw [if_neg ha]
      simp only [headNotHyphen]
      rw [Bool.not_eq_true] at ha
      simp [ha]

theorem dropLeadingHyphen_noDouble {l : List Char} (h : noDoubleHyphen l = true) :
    noDoubleHyphen (dropLeadingHyphen l) = true := by
  cases l with
  | nil => exact h
  | cons a t =>
    rw [dropLeadingHyphen]
    by_cases ha : (a == '-') = true
    · rw [if_pos ha]
      exact noDoubleHyphen_tail h
    · rw [if_neg ha]
      exact h

theorem dropLeadingHyphen_of_head {l : List Char} (h : headNotHyphen l = true) :
    dropLeadingHyphen l = l := by
  cases l with
  | nil => rfl
  | cons a t =>
    rw [headNotHyphen, Bool.not_eq_true'] at h
    rw [dropLeadingHyphen, if_neg (by simp [h])]

theorem noDoubleHyphen_last_pair (xs : List Char) (d e : Char)
    (h : noDoubleHyphen (xs ++ [d, e]) = true) : (d == '-' && e == '-') = false := by
  induction xs with
  | nil =>
    rw [List.nil_append, noDoubleHyphen] at h
    have h1 := ((Bool.and_eq_true _ _).mp h).1
    rw [Bool.not_eq_true'] at h1
    exact h1
  | cons x xs ih =>
    exact ih (noDoubleHyphen_tail (by simpa using h))

theorem noDoubleHyphen_dropLast_concat (xs : List Char) (x : Char)
    (h : noDoubleHyphen (xs ++ [x]) = true) : noDoubleHyphen xs = true := by
  induction xs with
  | nil => rfl
  | cons a as ih =>
    cases as with
    | nil => rfl
    | cons b bs =>
      have h' : noDoubleHyphen (a :: b :: (bs ++ [x])) = true := by simpa using h
      rw [noDoubleHyphen] at h'
      rcases (Bool.and_eq_true _ _).mp h' with ⟨h1, h2⟩
      rw [noDoubleHyphen]
      refine (Bool.and_eq_true _ _).mpr ⟨h1, ?_⟩
      exact ih (by simpa using h2)

theorem dropTrailingHyphen_concat_hyphen (xs : List Char) :
    dropTrailingHyphen (xs ++ ['-']) = xs := by
  rw [dropTrailingHyphen]
  simp [List.getLast?_concat, List.dropLast_concat]

theorem dropTrailingHyphen_concat_other (xs : List Char) {x : Char}
    (hx : (x == '-') = false) : dropTrailingHyphen (xs ++ [x]) = xs ++ [x] := by
  rw [dropTrailingHyphen]
  simp [List.getLast?_concat, hx]

theorem dropTrailingHyphen_last {l : List Char} (h : noDoubleHyphen l = true) :
    lastNotHyphen (dropTrailingHyphen l) = true := by
  rcases List.eq_nil_or_concat l with rfl | ⟨xs, x, rfl⟩
  · rfl
  · rw [List.concat_eq_append] at h ⊢
    cases hx : x == '-' with
    | true =>
      have hx' : x = '-' := by simpa using hx
      subst hx'
      rw [dropTrailingHyphen_concat_hyphen]
      rcases List.eq_nil_or_concat xs with rfl | ⟨ys, y, rfl⟩
      · rfl
      · rw [List.concat_eq_append] at h ⊢
        have hy := noDoubleHyphen_last_pair ys y '-' (by simpa using h)
        rw [Bool.and_eq_false_iff] at hy
        rcases hy with hy | hy
        · simp [lastNotHyphen, List.getLast?_concat, hy]
        · exact absurd hy (by simp)
    | false =>
      rw [dropTrailingHyphen_concat_other xs hx]
      simp [lastNotHyphen, List.getLast?_concat, hx]

theorem dropTrailingHyphen_noDouble {l : List Char} (h : noDoubleHyphen l = true) :
    noDoubleHyphen (dropTrailingHyphen l) = true := by
  rcases List.eq_nil_or_concat l with rfl | ⟨xs, x, rfl⟩
  · rfl
  · rw [List.concat_eq_append] at h ⊢
    cases hx : x == '-' with
    | true =>
      have hx' : x = '-' := by simpa using hx
      subst hx'
      rw [dropTrailingHyphen_concat_hyphen]
      exact noDoubleHyphen_dropLast_concat xs '-' h
    | false =>
      rw [dropTrailingHyphen_concat_other xs hx]
      exact h

theorem headNotHyphen_dropLast {l : List Char} (h : headNotHyphen l = true) :
    headNotHyphen l.dropLast = true := by
  cases l with
  | nil => rfl
  | cons a t =>
    cases t with
    | nil => rfl
    | cons b r =>
      rw [show (a :: b :: r).dropLast = a :: (b :: r).dropLast from rfl]
      simpa [headNotHyphen] using h

theorem dropTrailingHyphen_head {l : List Char} (h : headNotHyphen l = true) :
    headNotHyphen (dropTrailingHyphen l) = true := by
  rw [dropTrailingHyphen]
  cases hg : l.getLast? with
  | none => exact h
  | some c =>
    cases hc : c == '-' with
    | true =>
      simp only [if_pos hc]
      exact headNotHyphen_dropLast h
    | false =>
      simp only [hc, if_neg]
      exact h

theorem mem_dropTrailingHyphen {c : Char} {l : List Char}
    (h : c ∈ dropTrailingHyphen l) : c ∈ l := by
  rcases List.eq_nil_or_concat l with rfl | ⟨xs, x, rfl⟩
  · exact h
  · rw [List.concat_eq_append] at h ⊢
    cases hx : x == '-' with
    | true =>
      have hx' : x = '-' := by simpa using hx
      subst hx'
      rw [dropTrailingHyphen_concat_hyphen] at h
      exact List.mem_append_left _ h
    | false =>
      rw [dropTrailingHyphen_concat_other xs hx] at h
      exact h

theorem dropTrailingHyphen_of_last {l : List Char} (h : lastNotHyphen l = true) :
    dropTrailingHyphen l = l := by
  rcases List.eq_nil_or_concat l with rfl | ⟨xs, x, rfl⟩
  · rfl
  · rw [List.concat_eq_append] at h ⊢
    have hx : x ≠ '-' := by
      simpa [lastNotHyphen, List.getLast?_concat] using h
    exact dropTrailingHyphen_concat_other xs (beq_eq_false_iff_ne.mpr hx)

theorem toLower_fixes_slug {c : Char} (h : isSlugChar c = true ∨ c = '-') :
    c.toLower = c := by
  have hn : ¬ (c.toNat ≥ 65 ∧ c.toNat ≤ 90) := by
    rcases h with h | h
    · simp only [isSlugChar, Bool.or_eq_true, Bool.and_eq_true, decide_eq_true_eq] at h
      rcases h with ⟨h1, h2⟩ | ⟨h1, h2⟩ <;> omega
    · subst h; decide
  simp [Char.toLower, hn]

theorem collapseRuns_id (l : List Char)
    (hchars : ∀ c ∈ l, isSlugChar c = true ∨ c = '-')
    (hnd : noDoubleHyphen l = true) :
    collapseRuns false l = l ∧ (headNotHyphen l = true → collapseRuns true l = l) := by
  induction l with
  | nil => exact ⟨rfl, fun _ => rfl⟩
  | cons a as ih =>
    have hchars' : ∀ c ∈ as, isSlugChar c = true ∨ c = '-' :=
      fun c hc => hchars c (List.mem_cons_of_mem a hc)
    have hnd' : noDoubleHyphen as = true := noDoubleHyphen_tail hnd
    rcases hchars a (List.mem_cons_self a as) with ha | ha
    · have h1 : collapseRuns false (a :: as) = a :: collapseRuns false as := by
        simp [collapseRuns, ha]
      have h2 : collapseRuns true (a :: as) = a :: collapseRuns false as := by
        simp [collapseRuns, ha]
      have hfix : collapseRuns false as = as := (ih hchars' hnd').1
      exact ⟨by rw [h1, hfix], fun _ => by rw [h2, hfix]⟩
    · subst ha
      have hslug : ¬ isSlugChar '-' = true := by decide
      have h1 : collapseRuns false ('-' :: as) = '-' :: collapseRuns true as := by
        simp [collapseRuns, hslug]
      rw [noDoubleHyphen_cons_hyphen] at hnd
      have hhead : headNotHyphen as = true := ((Bool.and_eq_true _ _).mp hnd).1
      have hfix : collapseRuns true as = as := (ih hchars' hnd').2 hhead
      refine ⟨by rw [h1, hfix], fun hcontr => ?_⟩
      simp [headNotHyphen] at hcontr

/-- Claim C10: for every input string, `generateSlug` returns a string that
is either empty or consists only of lowercase ASCII letters, digits and
hyphens, never starts or ends with a hyphen, never contains two consecutive
hyphens — and is therefore idempotent. -/
theorem claim_C10_generateSlug (s : String) :
    (∀ c ∈ (generateSlug s).data, isSlugChar c = true ∨ c = '-') ∧
    headNotHyphen (generateSlug s).data = true ∧
    lastNotHyphen (generateSlug s).data = true ∧
    noDoubleHyphen (generateSlug s).data = true ∧
    generateSlug (generateSlug s) = generateSlug s := by
  have hdata : (generateSlug s).data = slugCore (s.data.map Char.toLower) := rfl
  have hnd1 : noDoubleHyphen (collapseRuns false (s.data.map Char.toLower)) = true :=
    collapseRuns_noDouble (s.data.map Char.toLower) false
  have hnd2 : noDoubleHyphen (dropLeadingHyphen
      (collapseRuns false (s.data.map Char.toLower))) = true :=
    dropLeadingHyphen_noDouble hnd1
  have hchars : ∀ c ∈ (generateSlug s).data, isSlugChar c = true ∨ c = '-' := by
    intro c hc
    rw [hdata, slugCore] at hc
    exact collapseRuns_chars (s.data.map Char.toLower) false c
      (mem_dropLeadingHyphen (mem_dropTrailingHyphen hc))
  have hhead : headNotHyphen (generateSlug s).data = true := by
    rw [hdata, slugCore]
    exact dropTrailingHyphen_head (dropLeadingHyphen_head hnd1)
  have hlast : lastNotHyphen (generateSlug s).data = true := by
    rw [hdata, slugCore]
    exact dropTrailingHyphen_last hnd2
  have hnd : noDoubleHyphen (generateSlug s).data = true := by
    rw [hdata, slugCore]
    exact dropTrailingHyphen_noDouble hnd2
  refine ⟨hchars, hhead, hlast, hnd, ?_⟩
  have hmap : (generateSlug s).data.map Char.toLower = (generateSlug s).data := by
    refine ((List.map_congr_left ?_).trans (List.map_id _))
    intro c hc
    exact toLower_fixes_slug (hchars c hc)
  have hcoll : collapseRuns false ((generateSlug s).data.map Char.toLower)
      = (generateSlug s).data := by
    rw [hmap]
    exact (collapseRuns_id (generateSlug s).data hchars hnd).1
  show String.mk (slugCore ((generateSlug s).data.map Char.toLower)) = generateSlug s
  rw [slugCore, hcoll, dropLeadingHyphen_of_head hhead, dropTrailingHyphen_of_last hlast]

/-- Witness for C10 at a concrete input: `generateSlug "Hello, World!"`
equals `"hello-world"`, is fixed by a second application, and its first
character is in the slug alphabet. -/
theorem claim_C10_generateSlug_witness :
    generateSlug (generateSlug "Hello, World!") = generateSlug "Hello, World!" ∧
    (isSlugChar 'h' = true ∨ 'h' = '-') := by
  exact ⟨(claim_C10_generateSlug "Hello, World!").2.2.2.2,
    (claim_C10_generateSlug "Hello, World!").1 'h' (by decide)⟩

end Storefront
